import Mathlib

/-!
# photon-vehicle: a light-seeking two-motor vehicle (ATmega, DRV8835 driver)

Shallow embedding of `src/drv8835.c`, `src/drv8835.h`, `src/main.c` and `src/main.h`.

* I/O registers and the three globals of `main.c` are the fields of `Machine`; every
  assignment to an I/O register stores the value reduced to 8 bits and appends the
  write to `Machine.writes` (the registers are `volatile`, so the order of the writes is
  part of the behaviour).  A register holds the value last written by the program; the
  timer hardware that advances `TCNT1` on its own is outside the model.
* `float` is IEEE 754 binary32 with round-to-nearest-even (`F32`).
* `int` is 16 bits wide (avr-gcc).
* Values that come from the environment are arguments: the three results of
  `ADC_collect` in `vehicleControlMovement`, and the value of `PIND` read by the
  interrupt handler after its delay.
-/

namespace PhotonVehicle

set_option maxRecDepth 100000

/-! ## IEEE 754 binary32, non-negative finite values -/

/-- A non-negative finite binary32 value, stored as the natural number `k` with
value `k / 2^149` (every finite binary32 value is a multiple of `2^-149`). -/
structure F32 where
  k : Nat
deriving DecidableEq

/-- Number of binary digits of `n`, by at most `fuel` halvings. -/
def bitLengthAux : Nat → Nat → Nat
  | 0, _ => 0
  | fuel + 1, n => if n = 0 then 0 else bitLengthAux fuel (n / 2) + 1

/-- Number of binary digits of `n`. -/
def bitLength (n : Nat) : Nat := bitLengthAux n n

/-- The binary32 value nearest to the rational `n / d` (`d > 0`), ties to even:
a 24-bit significand, gradual underflow below `2^-126`.  Results above the largest finite
binary32 value are not modelled (no computation in this program comes near it). -/
def F32.round (n d : Nat) : F32 :=
  let x := n * 2 ^ 149
  let q := x / d
  let s := bitLength q - 24
  let u := d * 2 ^ s
  let m := x / u
  let r := x % u
  let m1 := if 2 * r < u then m else if u < 2 * r then m + 1 else if m % 2 = 0 then m else m + 1
  ⟨m1 * 2 ^ s⟩

/-- Conversion of an integer to `float`. -/
def F32.ofNat (n : Nat) : F32 := F32.round n 1

/-- Division of two `float` values, `/` of C, for a divisor other than zero. -/
def F32.div (a b : F32) : F32 := F32.round a.k b.k

/-- Product of two `float` values, `*` of C. -/
def F32.mul (a b : F32) : F32 := F32.round (a.k * b.k) (2 ^ 149 * 2 ^ 149)

/-- Conversion `(uint16_t)` of a `float`: the fractional part is discarded. -/
def F32.toUInt16 (a : F32) : Nat := (a.k / 2 ^ 149) % 65536

/-! ## Registers and globals -/

/-- The I/O registers the program writes. -/
inductive Reg where
  | DDRB | PORTB | TCCR1A | TCCR1B | ICR1H | ICR1L
  | OCR1AH | OCR1AL | TCNT1H | TCNT1L | TIMSK1
deriving DecidableEq

/-- I/O registers written by the program, the globals of `main.c` (lines 22-23), and
the sequence of register writes performed so far. -/
structure Machine where
  DDRB : Nat
  PORTB : Nat
  TCCR1A : Nat
  TCCR1B : Nat
  ICR1H : Nat
  ICR1L : Nat
  OCR1AH : Nat
  OCR1AL : Nat
  TCNT1H : Nat
  TCNT1L : Nat
  TIMSK1 : Nat
  initDutyCycle : Nat
  vehicleEnableMovementFlag : Nat
  speedTableIndex : Nat
  writes : List (Reg × Nat)
deriving DecidableEq

/-- An assignment `r = v` to an 8-bit I/O register. -/
def Machine.write (s : Machine) (r : Reg) (v : Nat) : Machine :=
  let b := v % 256
  let t := { s with writes := s.writes ++ [(r, b)] }
  match r with
  | .DDRB => { t with DDRB := b }
  | .PORTB => { t with PORTB := b }
  | .TCCR1A => { t with TCCR1A := b }
  | .TCCR1B => { t with TCCR1B := b }
  | .ICR1H => { t with ICR1H := b }
  | .ICR1L => { t with ICR1L := b }
  | .OCR1AH => { t with OCR1AH := b }
  | .OCR1AL => { t with OCR1AL := b }
  | .TCNT1H => { t with TCNT1H := b }
  | .TCNT1L => { t with TCNT1L := b }
  | .TIMSK1 => { t with TIMSK1 := b }

/-! ## drv8835.h -/

/-- Bit numbers of `<avr/io.h>`. -/
def PORTB1 : Nat := 1
/-- Bit number of `<avr/io.h>`. -/
def PORTB2 : Nat := 2
/-- Bit number of `<avr/io.h>`. -/
def PORTB3 : Nat := 3

/-- drv8835.h:19. -/
def APHASE_bit : Nat := PORTB2
/-- drv8835.h:22. -/
def BPHASE_bit : Nat := PORTB3

/-- drv8835.h:25, `#define LO(x) ((x)&0xFF)`. -/
def LO (x : Nat) : Nat := x &&& 0xFF
/-- drv8835.h:26, `#define HI(x) (((x) >> 8) & 0xFF)`. -/
def HI (x : Nat) : Nat := (x >>> 8) &&& 0xFF
/-- drv8835.h:27. -/
def PWM_TOP : Nat := 400

/-- The operand `~(1 << bit)` of `&=`: the complement in a 16-bit `int`, as the
bit pattern it has in two's complement. -/
def notBit (bit : Nat) : Nat := 0xFFFF ^^^ (1 <<< bit)

/-! ## drv8835.c -/

/-- drv8835.c:27-47. -/
def motorDriver_init (s : Machine) : Machine :=
  let s := s.write .DDRB (s.DDRB ||| (1 <<< APHASE_bit))
  let s := s.write .DDRB (s.DDRB ||| (1 <<< BPHASE_bit))
  let s := s.write .DDRB (s.DDRB ||| (1 <<< PORTB1))
  let s := s.write .TCCR1A 0b10000010
  let s := s.write .TCCR1B 0b00010001
  let s := s.write .ICR1H (HI PWM_TOP)
  let s := s.write .ICR1L (LO PWM_TOP)
  let s := s.write .OCR1AH 0
  let s := s.write .OCR1AL 0
  let s := s.write .TCNT1H 0
  let s := s.write .TCNT1L 0
  s.write .TIMSK1 0

/-- drv8835.c:57-67. -/
def motorA_setPhase (direction : Nat) (s : Machine) : Machine :=
  if direction ≠ 0 then
    s.write .PORTB (s.PORTB ||| (1 <<< APHASE_bit))
  else
    s.write .PORTB (s.PORTB &&& notBit APHASE_bit)

/-- drv8835.c:77-87. -/
def motorB_setPhase (direction : Nat) (s : Machine) : Machine :=
  if direction ≠ 0 then
    s.write .PORTB (s.PORTB ||| (1 <<< BPHASE_bit))
  else
    s.write .PORTB (s.PORTB &&& notBit BPHASE_bit)

/-- drv8835.c:98, the value of `temp`:
`(uint16_t)(((float)dutyCycle / 100) * PWM_TOP)`. -/
def dutyCompare (dutyCycle : Nat) : Nat :=
  F32.toUInt16 (F32.mul (F32.div (F32.ofNat dutyCycle) (F32.ofNat 100)) (F32.ofNat PWM_TOP))

/-- drv8835.c:96-104. -/
def motors_setDutyCycle (dutyCycle : Nat) (s : Machine) : Machine :=
  let temp := dutyCompare dutyCycle
  let s := s.write .TCNT1H 0
  let s := s.write .TCNT1L 0
  let s := s.write .OCR1AH (HI temp)
  s.write .OCR1AL (LO temp)

/-- The 16-bit compare register `OCR1AH:OCR1AL`. -/
def OCR1A (s : Machine) : Nat := s.OCR1AH * 256 + s.OCR1AL

/-- The 16-bit counter register `TCNT1H:TCNT1L`. -/
def TCNT1 (s : Machine) : Nat := s.TCNT1H * 256 + s.TCNT1L

/-- Level of the phase pin of motor A (0 low: forward, 1 high: reverse). -/
def phaseA (s : Machine) : Nat := (s.PORTB >>> APHASE_bit) % 2

/-- Level of the phase pin of motor B (0 low: forward, 1 high: reverse). -/
def phaseB (s : Machine) : Nat := (s.PORTB >>> BPHASE_bit) % 2

/-! ## main.h -/

/-- Bit number of `<avr/io.h>`. -/
def PIND3 : Nat := 3

/-- main.h:27. -/
def BUTTON_bit : Nat := PIND3
/-- main.h:29. -/
def STARTING_SPEED : Nat := 30
/-- main.h:30. -/
def SPEEDS_NUM : Nat := 3
/-- main.h:32.  No statement of the program assigns to the array. -/
def speedTable : List Nat := [30, 60, 90]

/-- The preprocessor symbols that decide whether main.c:180-184 is compiled. -/
structure Defines where
  /-- Set by main.h:14 once the line is uncommented; `none` in the header as shipped. -/
  PHOTO_THRESHOLD : Option Nat
  /-- Whether the symbol tested by `#ifdef` at main.c:179 is defined.  No file of the
  repository defines it. -/
  PHOTO_THESHOLD : Bool
deriving DecidableEq

/-- The header as shipped: main.h:14 is commented out. -/
def Defines.shipped : Defines := ⟨none, false⟩

/-- The header with main.h:14 uncommented, `#define PHOTO_THRESHOLD t`. -/
def Defines.threshold (t : Nat) : Defines := ⟨some t, false⟩

/-- Outcome of preprocessing main.c:179-185: `some (some t)` when the block is compiled
and compares against `t`, `some none` when the block is left out, `none` when the unit
does not compile (the block is kept but `PHOTO_THRESHOLD` has no definition). -/
def thresholdBlock (d : Defines) : Option (Option Nat) :=
  if d.PHOTO_THESHOLD then
    match d.PHOTO_THRESHOLD with
    | some t => some (some t)
    | none => none
  else
    some none

/-! ## main.c -/

/-- main.c:141-159.  The two outputs `*max_val`, `*max_index` are passed in as
`out` and returned. -/
def photoMax (out : Nat × Nat) (val1 val2 val3 : Nat) : Nat × Nat :=
  let out : Nat × Nat := (out.1, 1)
  let out : Nat × Nat := (val1, out.2)
  let out : Nat × Nat := if val2 > out.1 then (val2, 2) else out
  let out : Nat × Nat := if val3 > out.1 then (val3, 3) else out
  out

/-- main.c:301-305. -/
def vehicleStop (s : Machine) : Machine :=
  motors_setDutyCycle 0 s

/-- main.c:216-222. -/
def moveForward (s : Machine) : Machine :=
  let s := motorA_setPhase 0 s
  let s := motorB_setPhase 1 s
  motors_setDutyCycle s.initDutyCycle s

/-- main.c:230-236. -/
def moveBackward (s : Machine) : Machine :=
  let s := motorA_setPhase 1 s
  let s := motorB_setPhase 0 s
  motors_setDutyCycle s.initDutyCycle s

/-- main.c:244-250. -/
def turnRight (s : Machine) : Machine :=
  let s := motorA_setPhase 0 s
  let s := motorB_setPhase 0 s
  motors_setDutyCycle s.initDutyCycle s

/-- main.c:258-264. -/
def turnLeft (s : Machine) : Machine :=
  let s := motorA_setPhase 1 s
  let s := motorB_setPhase 1 s
  motors_setDutyCycle s.initDutyCycle s

/-- main.c:190-201, the `switch` on `maxPhotoIndex`. -/
def switchMove (maxPhotoIndex : Nat) (s : Machine) : Machine :=
  match maxPhotoIndex with
  | 1 => moveForward s
  | 2 => turnRight s
  | 3 => turnLeft s
  | _ => s

/-- main.c:187-207, the part of `vehicleControlMovement` after the threshold block. -/
def moveByIndex (maxPhotoIndex : Nat) (s : Machine) : Machine :=
  let s := if s.vehicleEnableMovementFlag ≠ 0 then switchMove maxPhotoIndex s else s
  if s.vehicleEnableMovementFlag = 0 then vehicleStop s else s

/-- main.c:167-208.  `front`, `right`, `left` are the values returned by the three
calls of `ADC_collect`; `block` is the threshold block as compiled (`thresholdBlock`). -/
def vehicleControlMovement (block : Option Nat) (front right left : Nat) (s : Machine) :
    Machine :=
  let (maxVal, maxPhotoIndex) := photoMax (0, 0) front right left
  match block with
  | some t => if maxVal < t then vehicleStop s else moveByIndex maxPhotoIndex s
  | none => moveByIndex maxPhotoIndex s

/-- main.c:32-56, the handler of the button interrupt.  `pind` is the value of `PIND`
read at line 48, after the delay of 1200 ms. -/
def ISR_INT1_vect (pind : Nat) (s : Machine) : Machine :=
  let s :=
    if s.vehicleEnableMovementFlag ≠ 0 then
      { vehicleStop s with vehicleEnableMovementFlag := 0 }
    else
      { s with vehicleEnableMovementFlag := 1 }
  if (pind >>> BUTTON_bit) &&& 1 = 0 then
    let s := { s with speedTableIndex := (s.speedTableIndex + 1) % 256 }
    let s := if s.speedTableIndex ≥ SPEEDS_NUM then { s with speedTableIndex := 0 } else s
    { s with initDutyCycle := speedTable.getD s.speedTableIndex 0 }
  else
    s

/-- main.c:273-294.  At line 289 `||` is the logical or of C: `ocr_val` is 1 when one of
its operands is non-zero and 0 otherwise; the left operand `OCR1AH << 8` is computed in a
16-bit `int`. -/
def setSpeed (speedSelect : Nat) (s : Machine) : Machine :=
  let s :=
    match speedSelect with
    | 1 => { s with initDutyCycle := speedTable.getD 0 0 }
    | 2 => { s with initDutyCycle := speedTable.getD 1 0 }
    | 3 => { s with initDutyCycle := speedTable.getD 2 0 }
    | _ => s
  let ocr_val := if (s.OCR1AH <<< 8) % 65536 ≠ 0 ∨ s.OCR1AL ≠ 0 then 1 else 0
  if ocr_val ≠ 0 then motors_setDutyCycle s.initDutyCycle s else s

/-! ## Runs of the program -/

/-- The state in which `main` starts: the initialisers of main.c:22-23, over register
contents `r`. -/
def startup (r : Machine) : Machine :=
  { r with initDutyCycle := STARTING_SPEED, vehicleEnableMovementFlag := 0, speedTableIndex := 0 }

/-- What happens after `main` has entered its loop: the button interrupt is served
(`pind` as in `ISR_INT1_vect`), or the loop body runs once. -/
inductive Event where
  | button (pind : Nat)
  | loop (front right left : Nat)
deriving DecidableEq

/-- One event. -/
def Event.apply (block : Option Nat) (e : Event) (s : Machine) : Machine :=
  match e with
  | .button pind => ISR_INT1_vect pind s
  | .loop front right left => vehicleControlMovement block front right left s

/-- main.c:58-67: `motorDriver_init`, then the events in order.  (`button_init` and
`ADC_init` write `DDRD`, `EICRA`, `EIMSK`, `DDRC`, `ADMUX` and `ADCSRA` only, none of which
is a field of `Machine`.) -/
def run (block : Option Nat) (events : List Event) (r : Machine) : Machine :=
  events.foldl (fun s e => e.apply block s) (motorDriver_init (startup r))

/-- A call of one of the two phase setters of drv8835.c, with its argument. -/
inductive PhaseCall where
  | A (direction : Nat)
  | B (direction : Nat)
deriving DecidableEq

/-- One call of a phase setter. -/
def PhaseCall.apply (c : PhaseCall) (s : Machine) : Machine :=
  match c with
  | .A direction => motorA_setPhase direction s
  | .B direction => motorB_setPhase direction s

/-- A sequence of calls of the phase setters, in order. -/
def setPhases (calls : List PhaseCall) (s : Machine) : Machine :=
  calls.foldl (fun s c => c.apply s) s

/-- A state with every register zero, no write logged, and the given globals. -/
def Machine.zero (duty flag index : Nat) : Machine :=
  ⟨0, 0, 0, 0, 0, 0, 0, 0, 0, 0, 0, duty, flag, index, []⟩

/-! ## Lemmas -/

theorem photoMax_index (out : Nat × Nat) (val1 val2 val3 : Nat) :
    (photoMax out val1 val2 val3).2 =
      if val1 ≥ val2 ∧ val1 ≥ val3 then 1 else if val2 > val1 ∧ val2 ≥ val3 then 2 else 3 := by
  simp only [photoMax]
  split_ifs <;> first | rfl | (exfalso; omega)

/-! ### Values of the duty computation -/

theorem dutyCompare_zero : dutyCompare 0 = 0 := by decide

theorem dutyCompare_speedTable :
    dutyCompare 30 = 120 ∧ dutyCompare 60 = 240 ∧ dutyCompare 90 = 360 := by decide

theorem dutyCompare_53_59 : dutyCompare 53 = 211 ∧ dutyCompare 59 = 235 := by decide

/-! The value of `temp` for every 8-bit argument, evaluated 64 arguments at a time. -/

theorem dutyCompare_from_0 :
    ∀ p, p ≤ 63 → dutyCompare (p + 0) = 4 * (p + 0) -
      (if p + 0 ∈ [53, 59, 105, 106, 117, 118, 209, 210, 211, 212, 234, 235, 236, 237]
        then 1 else 0) := by decide

theorem dutyCompare_from_64 :
    ∀ p, p ≤ 63 → dutyCompare (p + 64) = 4 * (p + 64) -
      (if p + 64 ∈ [53, 59, 105, 106, 117, 118, 209, 210, 211, 212, 234, 235, 236, 237]
        then 1 else 0) := by decide

theorem dutyCompare_from_128 :
    ∀ p, p ≤ 63 → dutyCompare (p + 128) = 4 * (p + 128) -
      (if p + 128 ∈ [53, 59, 105, 106, 117, 118, 209, 210, 211, 212, 234, 235, 236, 237]
        then 1 else 0) := by decide

theorem dutyCompare_from_192 :
    ∀ p, p ≤ 63 → dutyCompare (p + 192) = 4 * (p + 192) -
      (if p + 192 ∈ [53, 59, 105, 106, 117, 118, 209, 210, 211, 212, 234, 235, 236, 237]
        then 1 else 0) := by decide

/-- For every 8-bit argument the value of `temp` is four times the argument, except for
fourteen arguments, where it is one less. -/
theorem dutyCompare_table (p : Nat) (h : p ≤ 255) :
    dutyCompare p = 4 * p -
      (if p ∈ [53, 59, 105, 106, 117, 118, 209, 210, 211, 212, 234, 235, 236, 237]
        then 1 else 0) := by
  rcases Nat.lt_or_ge p 64 with h0 | h0
  · exact dutyCompare_from_0 p (by omega)
  rcases Nat.lt_or_ge p 128 with h1 | h1
  · have := dutyCompare_from_64 (p - 64) (by omega)
    rwa [Nat.sub_add_cancel h0] at this
  rcases Nat.lt_or_ge p 192 with h2 | h2
  · have := dutyCompare_from_128 (p - 128) (by omega)
    rwa [Nat.sub_add_cancel h1] at this
  · have := dutyCompare_from_192 (p - 192) (by omega)
    rwa [Nat.sub_add_cancel h2] at this

/-- Apart from 53 and 59, every percentage up to 100 gives four times the percentage. -/
theorem dutyCompare_percent :
    ∀ p, p ≤ 100 → p ≠ 53 → p ≠ 59 → dutyCompare p = 4 * p := by
  intro p h100 h53 h59
  rw [dutyCompare_table p (by omega), if_neg, Nat.sub_zero]
  simp only [List.mem_cons, List.mem_singleton, List.not_mem_nil, or_false, not_or]
  omega

theorem dutyCompare_lt (d : Nat) : dutyCompare d < 65536 := by
  unfold dutyCompare F32.toUInt16
  exact Nat.mod_lt _ (by decide)

/-! ### Bytes and bits -/

theorem LO_eq (x : Nat) : LO x = x % 256 :=
  Nat.and_pow_two_sub_one_eq_mod x 8

theorem HI_eq (x : Nat) : HI x = x / 256 % 256 := by
  unfold HI
  rw [Nat.shiftRight_eq_div_pow]
  exact Nat.and_pow_two_sub_one_eq_mod (x / 2 ^ 8) 8

theorem HI_LO (x : Nat) (h : x < 65536) : HI x % 256 * 256 + LO x % 256 = x := by
  rw [LO_eq, HI_eq]
  omega

theorem shiftRight_mod_two (y i : Nat) : (y >>> i) % 2 = (y.testBit i).toNat := by
  rw [Nat.toNat_testBit, Nat.shiftRight_eq_div_pow]

theorem testBit_mod_256 (x i : Nat) : (x % 256).testBit i = (decide (i < 8) && x.testBit i) :=
  Nat.testBit_mod_two_pow x 8 i

/-- Setting a bit below 8 of an 8-bit register. -/
theorem bit_after_set (x i j : Nat) (hj : j < 8) :
    (((x ||| (1 <<< i)) % 256) >>> j) % 2 = if i = j then 1 else (x >>> j) % 2 := by
  rw [shiftRight_mod_two, shiftRight_mod_two, testBit_mod_256, Nat.testBit_or,
    Nat.one_shiftLeft, Nat.testBit_two_pow]
  by_cases h : i = j <;> simp [h, hj]

/-- Clearing a bit below 8 of an 8-bit register. -/
theorem bit_after_clear (x i j : Nat) (hj : j < 8) :
    (((x &&& notBit i) % 256) >>> j) % 2 = if i = j then 0 else (x >>> j) % 2 := by
  have h16 : (0xFFFF : Nat) = 2 ^ 16 - 1 := by decide
  rw [shiftRight_mod_two, shiftRight_mod_two, testBit_mod_256, Nat.testBit_and]
  unfold notBit
  rw [Nat.testBit_xor, h16, Nat.testBit_two_pow_sub_one, Nat.one_shiftLeft, Nat.testBit_two_pow]
  have hj16 : j < 16 := by omega
  by_cases h : i = j <;> simp [h, hj, hj16]

/-! ### Effect of the driver functions on the fields -/

theorem motors_setDutyCycle_OCR1A (d : Nat) (s : Machine) :
    OCR1A (motors_setDutyCycle d s) = dutyCompare d := by
  simp only [OCR1A, motors_setDutyCycle, Machine.write]
  exact HI_LO _ (dutyCompare_lt d)

theorem motors_setDutyCycle_frame (d : Nat) (s : Machine) :
    (motors_setDutyCycle d s).PORTB = s.PORTB ∧
    (motors_setDutyCycle d s).initDutyCycle = s.initDutyCycle ∧
    (motors_setDutyCycle d s).vehicleEnableMovementFlag = s.vehicleEnableMovementFlag ∧
    (motors_setDutyCycle d s).speedTableIndex = s.speedTableIndex := by
  simp [motors_setDutyCycle, Machine.write]

theorem motorA_setPhase_frame (d : Nat) (s : Machine) :
    (motorA_setPhase d s).OCR1AH = s.OCR1AH ∧ (motorA_setPhase d s).OCR1AL = s.OCR1AL ∧
    (motorA_setPhase d s).initDutyCycle = s.initDutyCycle ∧
    (motorA_setPhase d s).vehicleEnableMovementFlag = s.vehicleEnableMovementFlag ∧
    (motorA_setPhase d s).speedTableIndex = s.speedTableIndex := by
  unfold motorA_setPhase
  split <;> simp [Machine.write]

theorem motorB_setPhase_frame (d : Nat) (s : Machine) :
    (motorB_setPhase d s).OCR1AH = s.OCR1AH ∧ (motorB_setPhase d s).OCR1AL = s.OCR1AL ∧
    (motorB_setPhase d s).initDutyCycle = s.initDutyCycle ∧
    (motorB_setPhase d s).vehicleEnableMovementFlag = s.vehicleEnableMovementFlag ∧
    (motorB_setPhase d s).speedTableIndex = s.speedTableIndex := by
  unfold motorB_setPhase
  split <;> simp [Machine.write]

theorem motorA_setPhase_bit (d j : Nat) (s : Machine) (hj : j < 8) :
    ((motorA_setPhase d s).PORTB >>> j) % 2 =
      if APHASE_bit = j then (if d ≠ 0 then 1 else 0) else (s.PORTB >>> j) % 2 := by
  unfold motorA_setPhase
  by_cases hd : d ≠ 0
  · rw [if_pos hd, if_pos hd]
    exact bit_after_set s.PORTB APHASE_bit j hj
  · rw [if_neg hd, if_neg hd]
    exact bit_after_clear s.PORTB APHASE_bit j hj

theorem motorB_setPhase_bit (d j : Nat) (s : Machine) (hj : j < 8) :
    ((motorB_setPhase d s).PORTB >>> j) % 2 =
      if BPHASE_bit = j then (if d ≠ 0 then 1 else 0) else (s.PORTB >>> j) % 2 := by
  unfold motorB_setPhase
  by_cases hd : d ≠ 0
  · rw [if_pos hd, if_pos hd]
    exact bit_after_set s.PORTB BPHASE_bit j hj
  · rw [if_neg hd, if_neg hd]
    exact bit_after_clear s.PORTB BPHASE_bit j hj

/-- Phase pins after `motorA_setPhase a` followed by `motorB_setPhase b`. -/
theorem phases_after_setPhase (a b : Nat) (s : Machine) :
    phaseA (motorB_setPhase b (motorA_setPhase a s)) = (if a ≠ 0 then 1 else 0) ∧
    phaseB (motorB_setPhase b (motorA_setPhase a s)) = (if b ≠ 0 then 1 else 0) := by
  unfold phaseA phaseB
  constructor
  · rw [motorB_setPhase_bit b APHASE_bit _ (by decide), if_neg (by decide),
      motorA_setPhase_bit a APHASE_bit _ (by decide), if_pos rfl]
  · rw [motorB_setPhase_bit b BPHASE_bit _ (by decide), if_pos rfl]

/-- The four movement functions: phase pins, compare register and globals afterwards. -/
theorem move_effect (a b : Nat) (s : Machine) :
    phaseA (motors_setDutyCycle (motorB_setPhase b (motorA_setPhase a s)).initDutyCycle
        (motorB_setPhase b (motorA_setPhase a s))) = (if a ≠ 0 then 1 else 0) ∧
    phaseB (motors_setDutyCycle (motorB_setPhase b (motorA_setPhase a s)).initDutyCycle
        (motorB_setPhase b (motorA_setPhase a s))) = (if b ≠ 0 then 1 else 0) ∧
    OCR1A (motors_setDutyCycle (motorB_setPhase b (motorA_setPhase a s)).initDutyCycle
        (motorB_setPhase b (motorA_setPhase a s))) = dutyCompare s.initDutyCycle := by
  have hp := phases_after_setPhase a b s
  have hB := motorB_setPhase_frame b (motorA_setPhase a s)
  have hA := motorA_setPhase_frame a s
  refine ⟨?_, ?_, ?_⟩
  · rw [← hp.1]; unfold phaseA; rw [(motors_setDutyCycle_frame _ _).1]
  · rw [← hp.2]; unfold phaseB; rw [(motors_setDutyCycle_frame _ _).1]
  · rw [motors_setDutyCycle_OCR1A, hB.2.2.1, hA.2.2.1]

/-! ### The globals are written by the interrupt handler only -/

/-- The three globals of main.c:22-23 agree in two states. -/
theorem setPhase_duty_globals (a b d : Nat) (s : Machine) :
    (motors_setDutyCycle d (motorB_setPhase b (motorA_setPhase a s))).initDutyCycle
      = s.initDutyCycle ∧
    (motors_setDutyCycle d (motorB_setPhase b (motorA_setPhase a s))).vehicleEnableMovementFlag
      = s.vehicleEnableMovementFlag ∧
    (motors_setDutyCycle d (motorB_setPhase b (motorA_setPhase a s))).speedTableIndex
      = s.speedTableIndex := by
  have hD := motors_setDutyCycle_frame d (motorB_setPhase b (motorA_setPhase a s))
  have hB := motorB_setPhase_frame b (motorA_setPhase a s)
  have hA := motorA_setPhase_frame a s
  exact ⟨by rw [hD.2.1, hB.2.2.1, hA.2.2.1], by rw [hD.2.2.1, hB.2.2.2.1, hA.2.2.2.1],
    by rw [hD.2.2.2, hB.2.2.2.2, hA.2.2.2.2]⟩

theorem switchMove_globals (i : Nat) (s : Machine) :
    (switchMove i s).initDutyCycle = s.initDutyCycle ∧
    (switchMove i s).vehicleEnableMovementFlag = s.vehicleEnableMovementFlag ∧
    (switchMove i s).speedTableIndex = s.speedTableIndex := by
  unfold switchMove
  split
  · exact setPhase_duty_globals 0 1 _ s
  · exact setPhase_duty_globals 0 0 _ s
  · exact setPhase_duty_globals 1 1 _ s
  · exact ⟨rfl, rfl, rfl⟩

theorem vehicleStop_globals (s : Machine) :
    (vehicleStop s).initDutyCycle = s.initDutyCycle ∧
    (vehicleStop s).vehicleEnableMovementFlag = s.vehicleEnableMovementFlag ∧
    (vehicleStop s).speedTableIndex = s.speedTableIndex :=
  (motors_setDutyCycle_frame 0 s).2

theorem moveByIndex_globals (i : Nat) (s : Machine) :
    (moveByIndex i s).initDutyCycle = s.initDutyCycle ∧
    (moveByIndex i s).vehicleEnableMovementFlag = s.vehicleEnableMovementFlag ∧
    (moveByIndex i s).speedTableIndex = s.speedTableIndex := by
  unfold moveByIndex
  by_cases he : s.vehicleEnableMovementFlag ≠ 0
  · have hs := switchMove_globals i s
    simp only [if_pos he]
    rw [if_neg (by rw [hs.2.1]; exact he)]
    exact hs
  · simp only [if_neg he]
    rw [if_pos (not_not.mp he)]
    exact vehicleStop_globals s

theorem vehicleControlMovement_globals (block : Option Nat) (front right left : Nat)
    (s : Machine) :
    (vehicleControlMovement block front right left s).initDutyCycle = s.initDutyCycle ∧
    (vehicleControlMovement block front right left s).vehicleEnableMovementFlag
      = s.vehicleEnableMovementFlag ∧
    (vehicleControlMovement block front right left s).speedTableIndex = s.speedTableIndex := by
  unfold vehicleControlMovement
  cases block with
  | none => exact moveByIndex_globals _ s
  | some t =>
    simp only
    split
    · exact vehicleStop_globals s
    · exact moveByIndex_globals _ s

/-- The globals after the handler, in closed form. -/
theorem ISR_INT1_vect_globals (pind : Nat) (s : Machine) :
    (ISR_INT1_vect pind s).vehicleEnableMovementFlag
      = (if s.vehicleEnableMovementFlag ≠ 0 then 0 else 1) ∧
    (ISR_INT1_vect pind s).speedTableIndex
      = (if (pind >>> BUTTON_bit) &&& 1 = 0 then
          (if (s.speedTableIndex + 1) % 256 ≥ SPEEDS_NUM then 0
           else (s.speedTableIndex + 1) % 256)
         else s.speedTableIndex) ∧
    (ISR_INT1_vect pind s).initDutyCycle
      = (if (pind >>> BUTTON_bit) &&& 1 = 0 then
          speedTable.getD (if (s.speedTableIndex + 1) % 256 ≥ SPEEDS_NUM then 0
            else (s.speedTableIndex + 1) % 256) 0
         else s.initDutyCycle) := by
  unfold ISR_INT1_vect
  by_cases hlong : (pind >>> BUTTON_bit) &&& 1 = 0
  · simp only [if_pos hlong]
    by_cases he : s.vehicleEnableMovementFlag ≠ 0 <;>
    by_cases hc : (s.speedTableIndex + 1) % 256 ≥ SPEEDS_NUM <;>
    simp [he, hc, vehicleStop, motors_setDutyCycle, Machine.write]
  · simp only [if_neg hlong]
    by_cases he : s.vehicleEnableMovementFlag ≠ 0 <;>
    simp [he, vehicleStop, motors_setDutyCycle, Machine.write]

/-- The handler keeps `initDutyCycle` equal to the table entry at `speedTableIndex`. -/
theorem ISR_INT1_vect_table (pind : Nat) (s : Machine)
    (h : speedTable[s.speedTableIndex]? = some s.initDutyCycle) :
    speedTable[(ISR_INT1_vect pind s).speedTableIndex]? =
      some (ISR_INT1_vect pind s).initDutyCycle := by
  have hg := ISR_INT1_vect_globals pind s
  rw [hg.2.1, hg.2.2]
  by_cases hlong : (pind >>> BUTTON_bit) &&& 1 = 0
  · rw [if_pos hlong, if_pos hlong]
    have h3 : SPEEDS_NUM = 3 := rfl
    by_cases hc : (s.speedTableIndex + 1) % 256 ≥ SPEEDS_NUM
    · rw [if_pos hc]; rfl
    · rw [if_neg hc]
      rw [h3] at hc
      have hcases : (s.speedTableIndex + 1) % 256 = 0 ∨ (s.speedTableIndex + 1) % 256 = 1 ∨
          (s.speedTableIndex + 1) % 256 = 2 := by omega
      rcases hcases with h0 | h0 | h0 <;> rw [h0] <;> rfl
  · rw [if_neg hlong, if_neg hlong]
    exact h

theorem foldl_table (block : Option Nat) (events : List Event) (s : Machine)
    (h : speedTable[s.speedTableIndex]? = some s.initDutyCycle) :
    speedTable[(events.foldl (fun s e => e.apply block s) s).speedTableIndex]? =
      some (events.foldl (fun s e => e.apply block s) s).initDutyCycle := by
  induction events generalizing s with
  | nil => exact h
  | cons e es ih =>
    rw [List.foldl_cons]
    apply ih
    cases e with
    | button pind => exact ISR_INT1_vect_table pind s h
    | loop front right left =>
      have hg := vehicleControlMovement_globals block front right left s
      show speedTable[(vehicleControlMovement block front right left s).speedTableIndex]? =
        some (vehicleControlMovement block front right left s).initDutyCycle
      rw [hg.1, hg.2.2]
      exact h

theorem motorDriver_init_globals (s : Machine) :
    (motorDriver_init s).initDutyCycle = s.initDutyCycle ∧
    (motorDriver_init s).vehicleEnableMovementFlag = s.vehicleEnableMovementFlag ∧
    (motorDriver_init s).speedTableIndex = s.speedTableIndex := by
  simp [motorDriver_init, Machine.write]

/-! ### The phase setters write `PORTB` only -/

theorem PhaseCall_apply_timer (c : PhaseCall) (s : Machine) :
    (c.apply s).OCR1AH = s.OCR1AH ∧ (c.apply s).OCR1AL = s.OCR1AL ∧
    (c.apply s).TCNT1H = s.TCNT1H ∧ (c.apply s).TCNT1L = s.TCNT1L := by
  cases c with
  | A d =>
    show (motorA_setPhase d s).OCR1AH = _ ∧ (motorA_setPhase d s).OCR1AL = _ ∧
      (motorA_setPhase d s).TCNT1H = _ ∧ (motorA_setPhase d s).TCNT1L = _
    unfold motorA_setPhase
    split <;> simp [Machine.write]
  | B d =>
    show (motorB_setPhase d s).OCR1AH = _ ∧ (motorB_setPhase d s).OCR1AL = _ ∧
      (motorB_setPhase d s).TCNT1H = _ ∧ (motorB_setPhase d s).TCNT1L = _
    unfold motorB_setPhase
    split <;> simp [Machine.write]

theorem setPhases_timer (calls : List PhaseCall) (s : Machine) :
    OCR1A (setPhases calls s) = OCR1A s ∧ TCNT1 (setPhases calls s) = TCNT1 s := by
  unfold setPhases
  induction calls generalizing s with
  | nil => exact ⟨rfl, rfl⟩
  | cons c cs ih =>
    rw [List.foldl_cons]
    have hc := PhaseCall_apply_timer c s
    have h := ih (c.apply s)
    refine ⟨h.1.trans ?_, h.2.trans ?_⟩
    · unfold OCR1A; rw [hc.1, hc.2.1]
    · unfold TCNT1; rw [hc.2.2.1, hc.2.2.2]

theorem motors_setDutyCycle_writes (d : Nat) (s : Machine) :
    (motors_setDutyCycle d s).writes =
      s.writes ++ [(Reg.TCNT1H, 0), (Reg.TCNT1L, 0), (Reg.OCR1AH, HI (dutyCompare d) % 256),
        (Reg.OCR1AL, LO (dutyCompare d) % 256)] := by
  simp [motors_setDutyCycle, Machine.write]

/-! ### Shape of one loop iteration -/

/-- An iteration is `vehicleStop`, or, with the vehicle enabled, the movement function
that the `switch` selects. -/
theorem vehicleControlMovement_cases (block : Option Nat) (front right left : Nat)
    (s : Machine) :
    vehicleControlMovement block front right left s = vehicleStop s ∨
    (s.vehicleEnableMovementFlag ≠ 0 ∧
      vehicleControlMovement block front right left s
        = switchMove (photoMax (0, 0) front right left).2 s) := by
  have hm : ∀ i, moveByIndex i s = vehicleStop s ∨
      (s.vehicleEnableMovementFlag ≠ 0 ∧ moveByIndex i s = switchMove i s) := by
    intro i
    unfold moveByIndex
    by_cases he : s.vehicleEnableMovementFlag ≠ 0
    · right
      simp only [if_pos he]
      rw [if_neg (by rw [(switchMove_globals _ s).2.1]; exact he)]
      exact ⟨he, rfl⟩
    · left
      simp only [if_neg he]
      rw [if_pos (not_not.mp he)]
  unfold vehicleControlMovement
  cases block with
  | none => exact hm _
  | some t =>
    simp only
    split
    · exact Or.inl rfl
    · exact hm _

/-- The `switch` on the index of `photoMax` always takes one of its three cases. -/
theorem switchMove_photoMax (out : Nat × Nat) (front right left : Nat) (s : Machine) :
    switchMove (photoMax out front right left).2 s = moveForward s ∨
    switchMove (photoMax out front right left).2 s = turnRight s ∨
    switchMove (photoMax out front right left).2 s = turnLeft s := by
  rw [photoMax_index]
  unfold switchMove
  split_ifs
  · exact Or.inl rfl
  · exact Or.inr (Or.inl rfl)
  · exact Or.inr (Or.inr rfl)

theorem setPhase_writes_length (d : Nat) (s : Machine) :
    (motorA_setPhase d s).writes.length = s.writes.length + 1 ∧
    (motorB_setPhase d s).writes.length = s.writes.length + 1 := by
  unfold motorA_setPhase motorB_setPhase
  constructor <;> split <;> simp [Machine.write]

theorem vehicleStop_ne_moveBackward (s : Machine) : vehicleStop s ≠ moveBackward s := by
  intro h
  have hl := congrArg (fun m => m.writes.length) h
  simp only [vehicleStop, moveBackward, motors_setDutyCycle_writes, List.length_append,
    (setPhase_writes_length _ _).1, (setPhase_writes_length _ _).2, List.length_cons,
    List.length_nil] at hl
  omega

/-! ### The duty computation over all 8-bit arguments -/

/-- For every 8-bit argument the value of `temp` is four times the argument, or one less. -/
theorem dutyCompare_byte :
    ∀ p, p ≤ 255 → dutyCompare p = 4 * p ∨ dutyCompare p + 1 = 4 * p := by
  intro p h
  rw [dutyCompare_table p h]
  split
  · rename_i hm
    simp only [List.mem_cons, List.mem_singleton, List.not_mem_nil, or_false] at hm
    omega
  · exact Or.inl (Nat.sub_zero _)

/-! ### The speed table and the compare register along a run -/

/-- An index with a table entry is below `SPEEDS_NUM`, and the entry is 30, 60 or 90. -/
theorem speedTable_entry (i d : Nat) (h : speedTable[i]? = some d) :
    i < SPEEDS_NUM ∧ (d = 30 ∨ d = 60 ∨ d = 90) := by
  have hlt : i < 3 := by
    by_contra hge
    have hnone : speedTable[i]? = none := List.getElem?_eq_none (by
      show 3 ≤ i
      omega)
    rw [hnone] at h
    exact Option.noConfusion h
  refine ⟨hlt, ?_⟩
  have hcases : i = 0 ∨ i = 1 ∨ i = 2 := by omega
  rcases hcases with h0 | h0 | h0 <;> subst h0 <;>
    simp only [speedTable, List.getElem?_cons_zero, List.getElem?_cons_succ,
      Option.some.injEq] at h <;> omega

/-- The test of main.c:289-290 succeeds exactly when the compare register is not zero. -/
theorem compare_test (s : Machine) (hH : s.OCR1AH < 256) :
    ((s.OCR1AH <<< 8) % 65536 ≠ 0 ∨ s.OCR1AL ≠ 0) ↔ OCR1A s ≠ 0 := by
  unfold OCR1A
  rw [Nat.shiftLeft_eq]
  omega

theorem ISR_INT1_vect_OCR1A (pind : Nat) (s : Machine) :
    OCR1A (ISR_INT1_vect pind s) = if s.vehicleEnableMovementFlag ≠ 0 then 0 else OCR1A s := by
  unfold ISR_INT1_vect OCR1A
  by_cases hlong : (pind >>> BUTTON_bit) &&& 1 = 0
  · simp only [if_pos hlong]
    by_cases he : s.vehicleEnableMovementFlag ≠ 0 <;>
    by_cases hc : (s.speedTableIndex + 1) % 256 ≥ SPEEDS_NUM <;>
    simp [he, hc, vehicleStop, motors_setDutyCycle, Machine.write, dutyCompare_zero, HI, LO]
  · simp only [if_neg hlong]
    by_cases he : s.vehicleEnableMovementFlag ≠ 0 <;>
    simp [he, vehicleStop, motors_setDutyCycle, Machine.write, dutyCompare_zero, HI, LO]

theorem vehicleControlMovement_OCR1A (block : Option Nat) (front right left : Nat)
    (s : Machine) :
    OCR1A (vehicleControlMovement block front right left s) = 0 ∨
    OCR1A (vehicleControlMovement block front right left s) = dutyCompare s.initDutyCycle := by
  rcases vehicleControlMovement_cases block front right left s with hs | ⟨_, hs⟩
  · left
    rw [hs]
    unfold vehicleStop
    rw [motors_setDutyCycle_OCR1A, dutyCompare_zero]
  · right
    rw [hs]
    rcases switchMove_photoMax (0, 0) front right left s with h | h | h <;> rw [h]
    · exact (move_effect 0 1 s).2.2
    · exact (move_effect 0 0 s).2.2
    · exact (move_effect 1 1 s).2.2

/-- One event keeps the compare register among 0, 120, 240 and 360. -/
theorem Event_apply_compare (block : Option Nat) (e : Event) (s : Machine)
    (hT : speedTable[s.speedTableIndex]? = some s.initDutyCycle)
    (hO : OCR1A s = 0 ∨ OCR1A s = 120 ∨ OCR1A s = 240 ∨ OCR1A s = 360) :
    OCR1A (e.apply block s) = 0 ∨ OCR1A (e.apply block s) = 120 ∨
      OCR1A (e.apply block s) = 240 ∨ OCR1A (e.apply block s) = 360 := by
  cases e with
  | button pind =>
    have h : OCR1A (Event.apply block (Event.button pind) s)
        = if s.vehicleEnableMovementFlag ≠ 0 then 0 else OCR1A s :=
      ISR_INT1_vect_OCR1A pind s
    rw [h]
    split
    · exact Or.inl rfl
    · exact hO
  | loop front right left =>
    have h : OCR1A (Event.apply block (Event.loop front right left) s) = 0 ∨
        OCR1A (Event.apply block (Event.loop front right left) s)
          = dutyCompare s.initDutyCycle :=
      vehicleControlMovement_OCR1A block front right left s
    rcases h with h | h
    · exact Or.inl h
    · rw [h]
      rcases (speedTable_entry _ _ hT).2 with hd | hd | hd <;> rw [hd]
      · exact Or.inr (Or.inl dutyCompare_speedTable.1)
      · exact Or.inr (Or.inr (Or.inl dutyCompare_speedTable.2.1))
      · exact Or.inr (Or.inr (Or.inr dutyCompare_speedTable.2.2))

theorem Event_apply_table (block : Option Nat) (e : Event) (s : Machine)
    (hT : speedTable[s.speedTableIndex]? = some s.initDutyCycle) :
    speedTable[(e.apply block s).speedTableIndex]? = some (e.apply block s).initDutyCycle := by
  cases e with
  | button pind => exact ISR_INT1_vect_table pind s hT
  | loop front right left =>
    have hg := vehicleControlMovement_globals block front right left s
    show speedTable[(vehicleControlMovement block front right left s).speedTableIndex]? =
      some (vehicleControlMovement block front right left s).initDutyCycle
    rw [hg.1, hg.2.2]
    exact hT

theorem foldl_compare (block : Option Nat) (events : List Event) (s : Machine)
    (hT : speedTable[s.speedTableIndex]? = some s.initDutyCycle)
    (hO : OCR1A s = 0 ∨ OCR1A s = 120 ∨ OCR1A s = 240 ∨ OCR1A s = 360) :
    OCR1A (events.foldl (fun s e => e.apply block s) s) = 0 ∨
    OCR1A (events.foldl (fun s e => e.apply block s) s) = 120 ∨
    OCR1A (events.foldl (fun s e => e.apply block s) s) = 240 ∨
    OCR1A (events.foldl (fun s e => e.apply block s) s) = 360 := by
  induction events generalizing s with
  | nil => exact hO
  | cons e es ih =>
    rw [List.foldl_cons]
    exact ih (e.apply block s) (Event_apply_table block e s hT)
      (Event_apply_compare block e s hT hO)

theorem motorDriver_init_OCR1A (s : Machine) : OCR1A (motorDriver_init s) = 0 := by
  simp [OCR1A, motorDriver_init, Machine.write]

/-- The table invariant at the start of the loop. -/
theorem motorDriver_init_table (r : Machine) :
    speedTable[(motorDriver_init (startup r)).speedTableIndex]? =
      some (motorDriver_init (startup r)).initDutyCycle := by
  have hg := motorDriver_init_globals (startup r)
  rw [hg.1, hg.2.2]
  rfl

/-! ### `setSpeed` -/

/-- `setSpeed` for the arguments 1, 2, 3: the new duty is stored, and the compare
register is rewritten when it was not zero. -/
theorem setSpeed_eq (speedSelect : Nat) (s : Machine)
    (hsel : speedSelect = 1 ∨ speedSelect = 2 ∨ speedSelect = 3) (hH : s.OCR1AH < 256) :
    setSpeed speedSelect s =
      if OCR1A s ≠ 0 then
        motors_setDutyCycle (speedTable.getD (speedSelect - 1) 0)
          { s with initDutyCycle := speedTable.getD (speedSelect - 1) 0 }
      else
        { s with initDutyCycle := speedTable.getD (speedSelect - 1) 0 } := by
  have hc := compare_test s hH
  by_cases hz : OCR1A s ≠ 0
  · have ht := hc.mpr hz
    rw [if_pos hz]
    rcases hsel with h | h | h <;> subst h <;> unfold setSpeed <;> simp only [] <;>
      rw [if_pos ht] <;> rfl
  · have ht : ¬ ((s.OCR1AH <<< 8) % 65536 ≠ 0 ∨ s.OCR1AL ≠ 0) := fun h => hz (hc.mp h)
    rw [if_neg hz]
    rcases hsel with h | h | h <;> subst h <;> unfold setSpeed <;> simp only [] <;>
      rw [if_neg ht] <;> rfl

/-! ## The claims -/

/-- C1: the index computed by `photoMax` is 1 exactly when front ≥ right and front ≥ left,
2 exactly when right > front and right ≥ left, 3 exactly when left > front and
left > right; it is always one of the three, and the `switch` of
`vehicleControlMovement` then calls `moveForward`, `turnRight`, `turnLeft`
respectively. -/
theorem C1_decision (out : Nat × Nat) (front right left : Nat) (s : Machine) :
    ((photoMax out front right left).2 = 1 ↔ front ≥ right ∧ front ≥ left) ∧
    ((photoMax out front right left).2 = 2 ↔ right > front ∧ right ≥ left) ∧
    ((photoMax out front right left).2 = 3 ↔ left > front ∧ left > right) ∧
    ((photoMax out front right left).2 = 1 ∨ (photoMax out front right left).2 = 2 ∨
      (photoMax out front right left).2 = 3) ∧
    switchMove (photoMax out front right left).2 s =
      (if front ≥ right ∧ front ≥ left then moveForward s
       else if right > front ∧ right ≥ left then turnRight s
       else turnLeft s) := by
  rw [photoMax_index]
  by_cases h1 : front ≥ right ∧ front ≥ left
  · rw [if_pos h1, if_pos h1]
    refine ⟨⟨fun _ => h1, fun _ => rfl⟩, ⟨fun h => by omega, fun h => by omega⟩,
      ⟨fun h => by omega, fun h => by omega⟩, Or.inl rfl, rfl⟩
  · by_cases h2 : right > front ∧ right ≥ left
    · rw [if_neg h1, if_pos h2, if_neg h1, if_pos h2]
      refine ⟨⟨fun h => by omega, fun h => absurd h h1⟩, ⟨fun _ => h2, fun _ => rfl⟩,
        ⟨fun h => by omega, fun h => by omega⟩, Or.inr (Or.inl rfl), rfl⟩
    · rw [if_neg h1, if_neg h2, if_neg h1, if_neg h2]
      refine ⟨⟨fun h => by omega, fun h => absurd h h1⟩, ⟨fun h => by omega, fun h => absurd h h2⟩,
        ⟨fun _ => by omega, fun _ => rfl⟩, Or.inr (Or.inr rfl), rfl⟩

/-- C2: with main.h:14 uncommented (`PHOTO_THRESHOLD` defined as `t`, for instance 600) the
block of main.c:180-184 is not compiled, because line 179 tests `PHOTO_THESHOLD`.  With
threshold 600, readings (300, 400, 200) and the vehicle enabled, the iteration turns right
at compare value 120; had the block been compiled, it would have stopped (compare value
0). -/
theorem C2_threshold_block_not_compiled (t : Nat) :
    thresholdBlock (Defines.threshold t) = some none ∧
    (thresholdBlock (Defines.threshold 600)).map
        (fun block => vehicleControlMovement block 300 400 200 (Machine.zero 30 1 0)) =
      some (turnRight (Machine.zero 30 1 0)) ∧
    OCR1A (turnRight (Machine.zero 30 1 0)) = 120 ∧
    OCR1A (vehicleControlMovement (some 600) 300 400 200 (Machine.zero 30 1 0)) = 0 := by
  refine ⟨rfl, by decide, by decide, by decide⟩

/-- C3, as stated, fails: a long press (pin low at the sample) on a disabled vehicle leaves
it enabled, and on an enabled vehicle leaves it disabled. -/
theorem C3_long_press_changes_flag :
    (0 >>> BUTTON_bit) &&& 1 = 0 ∧
    (ISR_INT1_vect 0 (Machine.zero 30 0 0)).vehicleEnableMovementFlag
      ≠ (Machine.zero 30 0 0).vehicleEnableMovementFlag ∧
    (ISR_INT1_vect 0 (Machine.zero 30 1 0)).vehicleEnableMovementFlag
      ≠ (Machine.zero 30 1 0).vehicleEnableMovementFlag := by
  decide

/-- C3, amended: a long-press button event toggles the enable flag: a non-zero flag
becomes 0 and a zero flag becomes 1. -/
theorem C3_long_press_toggles (pind : Nat) (s : Machine)
    (hlong : (pind >>> BUTTON_bit) &&& 1 = 0) :
    (ISR_INT1_vect pind s).vehicleEnableMovementFlag =
      if s.vehicleEnableMovementFlag ≠ 0 then 0 else 1 := by
  unfold ISR_INT1_vect
  rw [if_pos hlong]
  by_cases he : s.vehicleEnableMovementFlag ≠ 0
  · simp only [if_pos he]
    split <;> rfl
  · simp only [if_neg he]
    split <;> rfl

/-- Witness of C3 (amended): pin value 7 has bit 3 low; the flag goes from 1 to 0. -/
theorem C3_long_press_toggles_witness :
    (8 >>> BUTTON_bit) &&& 1 ≠ 0 ∧ (7 >>> BUTTON_bit) &&& 1 = 0 ∧
    (ISR_INT1_vect 7 (Machine.zero 60 1 1)).vehicleEnableMovementFlag =
      if (Machine.zero 60 1 1).vehicleEnableMovementFlag ≠ 0 then 0 else 1 :=
  ⟨by decide, by decide, C3_long_press_toggles 7 (Machine.zero 60 1 1) (by decide)⟩

/-- C4: for every state with `speedTableIndex < SPEEDS_NUM`, a long-press button event
sets `speedTableIndex` to `(speedTableIndex + 1) % SPEEDS_NUM` and `initDutyCycle` to the
entry of `speedTable` at the new index; from index `SPEEDS_NUM - 1` the new index is 0
and the duty 30. -/
theorem C4_long_press_advances_speed (pind : Nat) (s : Machine)
    (hlong : (pind >>> BUTTON_bit) &&& 1 = 0) (hidx : s.speedTableIndex < SPEEDS_NUM) :
    (ISR_INT1_vect pind s).speedTableIndex = (s.speedTableIndex + 1) % SPEEDS_NUM ∧
    speedTable[(ISR_INT1_vect pind s).speedTableIndex]? =
      some (ISR_INT1_vect pind s).initDutyCycle ∧
    (s.speedTableIndex = SPEEDS_NUM - 1 →
      (ISR_INT1_vect pind s).speedTableIndex = 0 ∧ (ISR_INT1_vect pind s).initDutyCycle = 30) := by
  have h3 : SPEEDS_NUM = 3 := rfl
  rw [h3] at hidx ⊢
  unfold ISR_INT1_vect
  rw [if_pos hlong]
  have hcases : s.speedTableIndex = 0 ∨ s.speedTableIndex = 1 ∨ s.speedTableIndex = 2 := by
    omega
  by_cases he : s.vehicleEnableMovementFlag ≠ 0
  · rcases hcases with h | h | h <;>
      simp [he, h, h3, vehicleStop, motors_setDutyCycle, Machine.write, speedTable]
  · rcases hcases with h | h | h <;>
      simp [he, h, h3, speedTable]

/-- Witness of C4: from index 2 (duty 90), a long press gives index 0 and duty 30. -/
theorem C4_long_press_advances_speed_witness :
    (ISR_INT1_vect 0 (Machine.zero 90 1 2)).speedTableIndex = 0 ∧
    (ISR_INT1_vect 0 (Machine.zero 90 1 2)).initDutyCycle = 30 :=
  (C4_long_press_advances_speed 0 (Machine.zero 90 1 2) (by decide) (by decide)).2.2 (by decide)

/-- C5: in every state reached from startup (any register contents, the globals at their
initialisers, `motorDriver_init` done) by any sequence of button events and control-loop
iterations, `speedTableIndex` is inside `speedTable` and `initDutyCycle` is the entry at
that index. -/
theorem C5_duty_matches_table (block : Option Nat) (events : List Event) (r : Machine) :
    speedTable[(run block events r).speedTableIndex]? =
      some (run block events r).initDutyCycle := by
  unfold run
  apply foldl_table
  have hg := motorDriver_init_globals (startup r)
  rw [hg.1, hg.2.2]
  rfl

/-- C6: for every state with the vehicle enabled, a short-press button event (pin high at
the sample) returns with the flag 0 and the compare register 0, the four register writes
of the stop being the handler's own; `speedTableIndex` and `initDutyCycle` are as
before. -/
theorem C6_short_press_stops (pind : Nat) (s : Machine)
    (hshort : (pind >>> BUTTON_bit) &&& 1 ≠ 0) (he : s.vehicleEnableMovementFlag ≠ 0) :
    (ISR_INT1_vect pind s).vehicleEnableMovementFlag = 0 ∧
    OCR1A (ISR_INT1_vect pind s) = 0 ∧
    (ISR_INT1_vect pind s).writes =
      s.writes ++ [(Reg.TCNT1H, 0), (Reg.TCNT1L, 0), (Reg.OCR1AH, 0), (Reg.OCR1AL, 0)] ∧
    (ISR_INT1_vect pind s).speedTableIndex = s.speedTableIndex ∧
    (ISR_INT1_vect pind s).initDutyCycle = s.initDutyCycle := by
  have hI : ISR_INT1_vect pind s = { vehicleStop s with vehicleEnableMovementFlag := 0 } := by
    unfold ISR_INT1_vect
    simp only [if_neg hshort, if_pos he]
  have hO : OCR1A (vehicleStop s) = 0 := by
    unfold vehicleStop
    rw [motors_setDutyCycle_OCR1A, dutyCompare_zero]
  have hg := vehicleStop_globals s
  rw [hI]
  refine ⟨rfl, hO, ?_, hg.2.2, hg.1⟩
  simp [vehicleStop, motors_setDutyCycle, Machine.write, dutyCompare_zero, HI, LO]

/-- Witness of C6: pin value 8 has bit 3 high; enabled vehicle at index 1, duty 60, compare
register 240 before the event. -/
theorem C6_short_press_stops_witness :
    OCR1A { Machine.zero 60 1 1 with OCR1AL := 240 } = 240 ∧
    (ISR_INT1_vect 8 { Machine.zero 60 1 1 with OCR1AL := 240 }).vehicleEnableMovementFlag = 0 ∧
    OCR1A (ISR_INT1_vect 8 { Machine.zero 60 1 1 with OCR1AL := 240 }) = 0 :=
  ⟨by decide,
   (C6_short_press_stops 8 { Machine.zero 60 1 1 with OCR1AL := 240 } (by decide) (by decide)).1,
   (C6_short_press_stops 8 { Machine.zero 60 1 1 with OCR1AL := 240 } (by decide) (by decide)).2.1⟩

/-- C7, evaluated where it fails: for the percentages 53 and 59 `motors_setDutyCycle`
leaves 211 and 235 in the compare register, one below `4 * percent`. -/
theorem C7_setDutyCycle_53_59 (s : Machine) :
    OCR1A (motors_setDutyCycle 53 s) = 211 ∧ OCR1A (motors_setDutyCycle 59 s) = 235 := by
  rw [motors_setDutyCycle_OCR1A, motors_setDutyCycle_OCR1A]
  exact dutyCompare_53_59

/-- C8: for every sensor triple and every state with the vehicle enabled, with the
threshold block not compiled, one iteration of `vehicleControlMovement` is the movement
function selected by `photoMax`; afterwards the phase pins are (0, 1) when front wins,
(0, 0) when right wins and (1, 1) when left wins, the compare register holds what
`motors_setDutyCycle` writes for `initDutyCycle`, and that is 4 times the duty for each
entry of `speedTable` (120 for duty 30). -/
theorem C8_enabled_iteration (front right left : Nat) (s : Machine)
    (he : s.vehicleEnableMovementFlag ≠ 0) :
    vehicleControlMovement none front right left s
      = switchMove (photoMax (0, 0) front right left).2 s ∧
    (phaseA (vehicleControlMovement none front right left s),
      phaseB (vehicleControlMovement none front right left s))
      = (if front ≥ right ∧ front ≥ left then (0, 1)
         else if right > front ∧ right ≥ left then (0, 0)
         else (1, 1)) ∧
    OCR1A (vehicleControlMovement none front right left s)
      = OCR1A (motors_setDutyCycle s.initDutyCycle s) ∧
    (s.initDutyCycle ∈ speedTable →
      OCR1A (vehicleControlMovement none front right left s) = 4 * s.initDutyCycle) := by
  have hrun : vehicleControlMovement none front right left s
      = switchMove (photoMax (0, 0) front right left).2 s := by
    unfold vehicleControlMovement
    simp only
    unfold moveByIndex
    simp only [if_pos he]
    rw [if_neg (by rw [(switchMove_globals _ s).2.1]; exact he)]
  have hO : OCR1A (vehicleControlMovement none front right left s)
      = dutyCompare s.initDutyCycle := by
    rw [hrun, photoMax_index]
    unfold switchMove
    split_ifs
    · exact (move_effect 0 1 s).2.2
    · exact (move_effect 0 0 s).2.2
    · exact (move_effect 1 1 s).2.2
  refine ⟨hrun, ?_, ?_, ?_⟩
  · rw [hrun, photoMax_index]
    unfold switchMove
    split_ifs
    · exact Prod.ext (move_effect 0 1 s).1 (move_effect 0 1 s).2.1
    · exact Prod.ext (move_effect 0 0 s).1 (move_effect 0 0 s).2.1
    · exact Prod.ext (move_effect 1 1 s).1 (move_effect 1 1 s).2.1
  · rw [hO, motors_setDutyCycle_OCR1A]
  · intro hmem
    rw [hO]
    simp only [speedTable, List.mem_cons, List.mem_singleton, List.not_mem_nil, or_false] at hmem
    rcases hmem with h | h | h <;> rw [h]
    · exact dutyCompare_speedTable.1
    · exact dutyCompare_speedTable.2.1
    · exact dutyCompare_speedTable.2.2

/-- Witness of C8: readings (300, 700, 200), vehicle enabled, index 0, duty 30: both phase
pins low and compare value 120. -/
theorem C8_enabled_iteration_witness :
    (phaseA (vehicleControlMovement none 300 700 200 (Machine.zero 30 1 0)),
      phaseB (vehicleControlMovement none 300 700 200 (Machine.zero 30 1 0))) = (0, 0) ∧
    OCR1A (vehicleControlMovement none 300 700 200 (Machine.zero 30 1 0)) = 120 :=
  ⟨(C8_enabled_iteration 300 700 200 (Machine.zero 30 1 0) (by decide)).2.1,
   (C8_enabled_iteration 300 700 200 (Machine.zero 30 1 0) (by decide)).2.2.2 (by decide)⟩

/-- C9: for every state with the vehicle enabled, two consecutive short-press button
events leave the flag non-zero (it is 1) and `speedTableIndex`, `initDutyCycle` as
before. -/
theorem C9_two_short_presses (pind1 pind2 : Nat) (s : Machine)
    (h1 : (pind1 >>> BUTTON_bit) &&& 1 ≠ 0) (h2 : (pind2 >>> BUTTON_bit) &&& 1 ≠ 0)
    (he : s.vehicleEnableMovementFlag ≠ 0) :
    (ISR_INT1_vect pind2 (ISR_INT1_vect pind1 s)).vehicleEnableMovementFlag = 1 ∧
    (ISR_INT1_vect pind2 (ISR_INT1_vect pind1 s)).speedTableIndex = s.speedTableIndex ∧
    (ISR_INT1_vect pind2 (ISR_INT1_vect pind1 s)).initDutyCycle = s.initDutyCycle := by
  have ha := ISR_INT1_vect_globals pind1 s
  have hb := ISR_INT1_vect_globals pind2 (ISR_INT1_vect pind1 s)
  rw [if_neg h1, if_neg h1, if_pos he] at ha
  rw [if_neg h2, if_neg h2, ha.1, ha.2.1, ha.2.2] at hb
  exact ⟨hb.1, hb.2.1, hb.2.2⟩

/-- Witness of C9: two short presses (pin values 8 and 255) on an enabled vehicle at
index 2, duty 90. -/
theorem C9_two_short_presses_witness :
    (ISR_INT1_vect 255 (ISR_INT1_vect 8 (Machine.zero 90 1 2))).vehicleEnableMovementFlag = 1 ∧
    (ISR_INT1_vect 255 (ISR_INT1_vect 8 (Machine.zero 90 1 2))).speedTableIndex = 2 ∧
    (ISR_INT1_vect 255 (ISR_INT1_vect 8 (Machine.zero 90 1 2))).initDutyCycle = 90 :=
  C9_two_short_presses 8 255 (Machine.zero 90 1 2) (by decide) (by decide) (by decide)

/-- C10: for every prior state, `moveForward` leaves the phase pins of motors A and B at
(0, 1), `moveBackward` at (1, 0), `turnRight` at (0, 0) and `turnLeft` at (1, 1), where 0
is low (forward) and 1 is high (reverse); each leaves in the compare register the value
of `temp` for `initDutyCycle`, which is four times `initDutyCycle` for every entry of
`speedTable` and for every duty up to 100 other than 53 and 59, and each leaves
`initDutyCycle` as it was. -/
theorem C10_action_table (s : Machine) :
    ((phaseA (moveForward s), phaseB (moveForward s)) = (0, 1) ∧
      OCR1A (moveForward s) = dutyCompare s.initDutyCycle ∧
      (s.initDutyCycle ∈ speedTable → OCR1A (moveForward s) = 4 * s.initDutyCycle) ∧
      (moveForward s).initDutyCycle = s.initDutyCycle) ∧
    ((phaseA (moveBackward s), phaseB (moveBackward s)) = (1, 0) ∧
      OCR1A (moveBackward s) = dutyCompare s.initDutyCycle ∧
      (s.initDutyCycle ∈ speedTable → OCR1A (moveBackward s) = 4 * s.initDutyCycle) ∧
      (moveBackward s).initDutyCycle = s.initDutyCycle) ∧
    ((phaseA (turnRight s), phaseB (turnRight s)) = (0, 0) ∧
      OCR1A (turnRight s) = dutyCompare s.initDutyCycle ∧
      (s.initDutyCycle ∈ speedTable → OCR1A (turnRight s) = 4 * s.initDutyCycle) ∧
      (turnRight s).initDutyCycle = s.initDutyCycle) ∧
    ((phaseA (turnLeft s), phaseB (turnLeft s)) = (1, 1) ∧
      OCR1A (turnLeft s) = dutyCompare s.initDutyCycle ∧
      (s.initDutyCycle ∈ speedTable → OCR1A (turnLeft s) = 4 * s.initDutyCycle) ∧
      (turnLeft s).initDutyCycle = s.initDutyCycle) ∧
    (s.initDutyCycle ≤ 100 → s.initDutyCycle ≠ 53 → s.initDutyCycle ≠ 59 →
      OCR1A (moveForward s) = 4 * s.initDutyCycle ∧
      OCR1A (moveBackward s) = 4 * s.initDutyCycle ∧
      OCR1A (turnRight s) = 4 * s.initDutyCycle ∧
      OCR1A (turnLeft s) = 4 * s.initDutyCycle) := by
  have hF : OCR1A (moveForward s) = dutyCompare s.initDutyCycle := (move_effect 0 1 s).2.2
  have hB : OCR1A (moveBackward s) = dutyCompare s.initDutyCycle := (move_effect 1 0 s).2.2
  have hR : OCR1A (turnRight s) = dutyCompare s.initDutyCycle := (move_effect 0 0 s).2.2
  have hL : OCR1A (turnLeft s) = dutyCompare s.initDutyCycle := (move_effect 1 1 s).2.2
  have htab : s.initDutyCycle ∈ speedTable → dutyCompare s.initDutyCycle = 4 * s.initDutyCycle := by
    intro hmem
    simp only [speedTable, List.mem_cons, List.mem_singleton, List.not_mem_nil, or_false] at hmem
    rcases hmem with h | h | h <;> rw [h]
    · exact dutyCompare_speedTable.1
    · exact dutyCompare_speedTable.2.1
    · exact dutyCompare_speedTable.2.2
  refine
    ⟨⟨Prod.ext (move_effect 0 1 s).1 (move_effect 0 1 s).2.1, hF,
        fun hm => hF.trans (htab hm), (setPhase_duty_globals 0 1 _ s).1⟩,
      ⟨Prod.ext (move_effect 1 0 s).1 (move_effect 1 0 s).2.1, hB,
        fun hm => hB.trans (htab hm), (setPhase_duty_globals 1 0 _ s).1⟩,
      ⟨Prod.ext (move_effect 0 0 s).1 (move_effect 0 0 s).2.1, hR,
        fun hm => hR.trans (htab hm), (setPhase_duty_globals 0 0 _ s).1⟩,
      ⟨Prod.ext (move_effect 1 1 s).1 (move_effect 1 1 s).2.1, hL,
        fun hm => hL.trans (htab hm), (setPhase_duty_globals 1 1 _ s).1⟩, ?_⟩
  intro h100 h53 h59
  have hp := dutyCompare_percent s.initDutyCycle h100 h53 h59
  exact ⟨hF.trans hp, hB.trans hp, hR.trans hp, hL.trans hp⟩

/-- Witness of C10: duty 60, every bit of `PORTB` set and compare register 7 beforehand:
`moveForward` leaves the pins at (0, 1), `moveBackward` at (1, 0), and both leave 240 in
the compare register. -/
theorem C10_action_table_witness :
    OCR1A { Machine.zero 60 1 1 with PORTB := 255, OCR1AL := 7 } = 7 ∧
    ((phaseA (moveForward { Machine.zero 60 1 1 with PORTB := 255, OCR1AL := 7 }),
        phaseB (moveForward { Machine.zero 60 1 1 with PORTB := 255, OCR1AL := 7 })) = (0, 1) ∧
      OCR1A (moveForward { Machine.zero 60 1 1 with PORTB := 255, OCR1AL := 7 }) = 240) ∧
    ((phaseA (moveBackward { Machine.zero 60 1 1 with PORTB := 255, OCR1AL := 7 }),
        phaseB (moveBackward { Machine.zero 60 1 1 with PORTB := 255, OCR1AL := 7 })) = (1, 0) ∧
      OCR1A (moveBackward { Machine.zero 60 1 1 with PORTB := 255, OCR1AL := 7 }) = 240) :=
  ⟨by decide,
   ⟨(C10_action_table { Machine.zero 60 1 1 with PORTB := 255, OCR1AL := 7 }).1.1,
    (C10_action_table { Machine.zero 60 1 1 with PORTB := 255, OCR1AL := 7 }).1.2.2.1
      (by decide)⟩,
   ⟨(C10_action_table { Machine.zero 60 1 1 with PORTB := 255, OCR1AL := 7 }).2.1.1,
    (C10_action_table { Machine.zero 60 1 1 with PORTB := 255, OCR1AL := 7 }).2.1.2.2.1
      (by decide)⟩⟩

/-- C11: for every sensor triple and every state with the vehicle disabled (flag 0), one
iteration of `vehicleControlMovement`, with or without the threshold block, is
`vehicleStop` and ends with the compare register 0, whatever the registers held. -/
theorem C11_disabled_iteration_stops (block : Option Nat) (front right left : Nat)
    (s : Machine) (hd : s.vehicleEnableMovementFlag = 0) :
    vehicleControlMovement block front right left s = vehicleStop s ∧
    OCR1A (vehicleControlMovement block front right left s) = 0 := by
  have hm : ∀ i, moveByIndex i s = vehicleStop s := by
    intro i
    unfold moveByIndex
    simp only [hd, ne_eq, not_true_eq_false, if_false, if_true]
  have hrun : vehicleControlMovement block front right left s = vehicleStop s := by
    unfold vehicleControlMovement
    cases block with
    | none => exact hm _
    | some t =>
      simp only
      split
      · rfl
      · exact hm _
  refine ⟨hrun, ?_⟩
  rw [hrun]
  unfold vehicleStop
  rw [motors_setDutyCycle_OCR1A, dutyCompare_zero]

/-- Witness of C11: disabled vehicle whose compare register holds 360 and whose phase pins
are both high; readings (900, 100, 50). -/
theorem C11_disabled_iteration_stops_witness :
    OCR1A { Machine.zero 90 0 2 with OCR1AH := 1, OCR1AL := 104, PORTB := 12 } = 360 ∧
    OCR1A (vehicleControlMovement none 900 100 50
      { Machine.zero 90 0 2 with OCR1AH := 1, OCR1AL := 104, PORTB := 12 }) = 0 :=
  ⟨by decide,
   (C11_disabled_iteration_stops none 900 100 50
      { Machine.zero 90 0 2 with OCR1AH := 1, OCR1AL := 104, PORTB := 12 } rfl).2⟩

/-- C12: `motors_setDutyCycle` for 0, 50 and 100 leaves 0, 200 and 400 in the compare
register; the bytes written are `HI` and `LO` of these values, and they recombine to
them. -/
theorem C12_setDutyCycle_0_50_100 (s : Machine) :
    (OCR1A (motors_setDutyCycle 0 s) = 0 ∧
      (motors_setDutyCycle 0 s).OCR1AH = HI 0 ∧ (motors_setDutyCycle 0 s).OCR1AL = LO 0 ∧
      HI 0 * 256 + LO 0 = 0) ∧
    (OCR1A (motors_setDutyCycle 50 s) = 200 ∧
      (motors_setDutyCycle 50 s).OCR1AH = HI 200 ∧ (motors_setDutyCycle 50 s).OCR1AL = LO 200 ∧
      HI 200 * 256 + LO 200 = 200) ∧
    (OCR1A (motors_setDutyCycle 100 s) = PWM_TOP ∧
      (motors_setDutyCycle 100 s).OCR1AH = HI PWM_TOP ∧
      (motors_setDutyCycle 100 s).OCR1AL = LO PWM_TOP ∧
      HI PWM_TOP * 256 + LO PWM_TOP = PWM_TOP) := by
  have h0 : dutyCompare 0 = 0 := dutyCompare_zero
  have h50 : dutyCompare 50 = 200 := by decide
  have h100 : dutyCompare 100 = 400 := by decide
  simp only [OCR1A, motors_setDutyCycle, Machine.write, h0, h50, h100]
  decide

/-- C13: the phase setters never change the compare register or the counter register, so
after `motors_setDutyCycle 0` any sequence of `motorA_setPhase` and `motorB_setPhase`
calls, with any arguments, leaves the compare register at 0. -/
theorem C13_stop_phase_independent (calls : List PhaseCall) (s : Machine) :
    OCR1A (setPhases calls (motors_setDutyCycle 0 s)) = 0 ∧
    OCR1A (setPhases calls s) = OCR1A s ∧
    TCNT1 (setPhases calls s) = TCNT1 s := by
  refine ⟨?_, setPhases_timer calls s⟩
  rw [(setPhases_timer calls _).1, motors_setDutyCycle_OCR1A, dutyCompare_zero]

/-- C14: for every sensor triple, every state and with or without the threshold block, one
iteration of `vehicleControlMovement` is `vehicleStop`, `moveForward`, `turnRight` or
`turnLeft`, and never `moveBackward`; with the vehicle enabled it either stops (threshold
block) or leaves the phase pins at (0, 1), (0, 0) or (1, 1), not at (1, 0), and without
the threshold block it always drives. -/
theorem C14_never_moveBackward (block : Option Nat) (front right left : Nat) (s : Machine) :
    vehicleControlMovement block front right left s ≠ moveBackward s ∧
    (vehicleControlMovement block front right left s = vehicleStop s ∨
      vehicleControlMovement block front right left s = moveForward s ∨
      vehicleControlMovement block front right left s = turnRight s ∨
      vehicleControlMovement block front right left s = turnLeft s) ∧
    (s.vehicleEnableMovementFlag ≠ 0 →
      (vehicleControlMovement block front right left s = vehicleStop s ∨
        (((phaseA (vehicleControlMovement block front right left s),
            phaseB (vehicleControlMovement block front right left s)) = (0, 1) ∨
          (phaseA (vehicleControlMovement block front right left s),
            phaseB (vehicleControlMovement block front right left s)) = (0, 0) ∨
          (phaseA (vehicleControlMovement block front right left s),
            phaseB (vehicleControlMovement block front right left s)) = (1, 1)) ∧
         (phaseA (vehicleControlMovement block front right left s),
            phaseB (vehicleControlMovement block front right left s)) ≠ (1, 0))) ∧
      (block = none →
        vehicleControlMovement block front right left s ≠ vehicleStop s)) := by
  have hF := move_effect 0 1 s
  have hR := move_effect 0 0 s
  have hL := move_effect 1 1 s
  have hB := move_effect 1 0 s
  have hBA : phaseA (moveBackward s) = 1 := hB.1
  have hBB : phaseB (moveBackward s) = 0 := hB.2.1
  have hFA : phaseA (moveForward s) = 0 := hF.1
  have hFB : phaseB (moveForward s) = 1 := hF.2.1
  have hRA : phaseA (turnRight s) = 0 := hR.1
  have hRB : phaseB (turnRight s) = 0 := hR.2.1
  have hLA : phaseA (turnLeft s) = 1 := hL.1
  have hLB : phaseB (turnLeft s) = 1 := hL.2.1
  have hsw := switchMove_photoMax (0, 0) front right left s
  have hstop : ∀ m, (m = moveForward s ∨ m = turnRight s ∨ m = turnLeft s) →
      m ≠ vehicleStop s := by
    intro m hm heq
    have hl := congrArg (fun m => m.writes.length) heq
    rcases hm with h | h | h <;> subst h <;>
      simp only [vehicleStop, moveForward, turnRight, turnLeft, motors_setDutyCycle_writes,
        List.length_append, (setPhase_writes_length _ _).1, (setPhase_writes_length _ _).2,
        List.length_cons, List.length_nil] at hl <;> omega
  rcases vehicleControlMovement_cases block front right left s with hs | ⟨he, hs⟩
  · rw [hs]
    refine ⟨vehicleStop_ne_moveBackward s, Or.inl rfl, fun _ => ⟨Or.inl rfl, ?_⟩⟩
    intro hb
    subst hb
    exfalso
    rcases vehicleControlMovement_cases none front right left s with h2 | ⟨_, h2⟩
    · have hd : s.vehicleEnableMovementFlag ≠ 0 := by assumption
      have hrun : vehicleControlMovement none front right left s
          = switchMove (photoMax (0, 0) front right left).2 s := by
        unfold vehicleControlMovement
        simp only
        unfold moveByIndex
        simp only [if_pos hd]
        rw [if_neg (by rw [(switchMove_globals _ s).2.1]; exact hd)]
      exact hstop _ hsw (hrun.symm.trans h2)
    · exact hstop _ hsw (h2.symm.trans hs)
  · rw [hs]
    rcases hsw with h | h | h <;> rw [h]
    · refine ⟨fun heq => ?_, Or.inr (Or.inl rfl), fun _ => ⟨Or.inr ⟨Or.inl ?_, ?_⟩, fun _ => ?_⟩⟩
      · have := congrArg phaseA heq; omega
      · rw [hFA, hFB]
      · rw [hFA, hFB]; decide
      · exact hstop _ (Or.inl rfl)
    · refine ⟨fun heq => ?_, Or.inr (Or.inr (Or.inl rfl)),
        fun _ => ⟨Or.inr ⟨Or.inr (Or.inl ?_), ?_⟩, fun _ => ?_⟩⟩
      · have := congrArg phaseA heq; omega
      · rw [hRA, hRB]
      · rw [hRA, hRB]; decide
      · exact hstop _ (Or.inr (Or.inl rfl))
    · refine ⟨fun heq => ?_, Or.inr (Or.inr (Or.inr rfl)),
        fun _ => ⟨Or.inr ⟨Or.inr (Or.inr ?_), ?_⟩, fun _ => ?_⟩⟩
      · have := congrArg phaseB heq; omega
      · rw [hLA, hLB]
      · rw [hLA, hLB]; decide
      · exact hstop _ (Or.inr (Or.inr rfl))

/-- Witness of C14: enabled vehicle whose phase pins are at (1, 0) beforehand, readings
(10, 20, 30): the iteration is `turnLeft` and leaves the pins at (1, 1). -/
theorem C14_never_moveBackward_witness :
    (phaseA { Machine.zero 30 1 0 with PORTB := 4 },
      phaseB { Machine.zero 30 1 0 with PORTB := 4 }) = (1, 0) ∧
    vehicleControlMovement none 10 20 30 { Machine.zero 30 1 0 with PORTB := 4 }
      ≠ moveBackward { Machine.zero 30 1 0 with PORTB := 4 } ∧
    (phaseA (vehicleControlMovement none 10 20 30 { Machine.zero 30 1 0 with PORTB := 4 }),
      phaseB (vehicleControlMovement none 10 20 30 { Machine.zero 30 1 0 with PORTB := 4 }))
      = (1, 1) :=
  ⟨by decide,
   (C14_never_moveBackward none 10 20 30 { Machine.zero 30 1 0 with PORTB := 4 }).1,
   by decide⟩

/-- C15: for every state with 8-bit registers and every argument 1, 2 or 3, `setSpeed`
stores `speedTable[speedSelect - 1]` in `initDutyCycle`; it writes to registers exactly
when the compare register was not zero, and then it is `motors_setDutyCycle` of the new
duty (compare register four times the duty); when the compare register was zero only
`initDutyCycle` changes and the compare register stays zero. -/
theorem C15_setSpeed (speedSelect : Nat) (s : Machine)
    (hsel : speedSelect = 1 ∨ speedSelect = 2 ∨ speedSelect = 3) (hH : s.OCR1AH < 256) :
    speedTable[speedSelect - 1]? = some (setSpeed speedSelect s).initDutyCycle ∧
    ((setSpeed speedSelect s).writes ≠ s.writes ↔ OCR1A s ≠ 0) ∧
    (OCR1A s ≠ 0 →
      setSpeed speedSelect s =
        motors_setDutyCycle (setSpeed speedSelect s).initDutyCycle
          { s with initDutyCycle := (setSpeed speedSelect s).initDutyCycle } ∧
      OCR1A (setSpeed speedSelect s) = 4 * (setSpeed speedSelect s).initDutyCycle) ∧
    (OCR1A s = 0 →
      setSpeed speedSelect s =
        { s with initDutyCycle := (setSpeed speedSelect s).initDutyCycle } ∧
      OCR1A (setSpeed speedSelect s) = 0) := by
  have heq := setSpeed_eq speedSelect s hsel hH
  have hd : (setSpeed speedSelect s).initDutyCycle = speedTable.getD (speedSelect - 1) 0 := by
    rw [heq]
    split
    · exact (motors_setDutyCycle_frame _ _).2.1
    · rfl
  have hentry : speedTable[speedSelect - 1]? = some (speedTable.getD (speedSelect - 1) 0) := by
    rcases hsel with h | h | h <;> subst h <;> rfl
  have hval := (speedTable_entry _ _ hentry).2
  rw [hd]
  refine ⟨hentry, ?_, ?_, ?_⟩
  · rw [heq]
    by_cases hz : OCR1A s ≠ 0
    · rw [if_pos hz, motors_setDutyCycle_writes]
      simp [hz]
    · rw [if_neg hz]
      simp [hz]
  · intro hz
    rw [heq, if_pos hz]
    refine ⟨rfl, ?_⟩
    rw [motors_setDutyCycle_OCR1A]
    rcases hval with h | h | h <;> rw [h]
    · exact dutyCompare_speedTable.1
    · exact dutyCompare_speedTable.2.1
    · exact dutyCompare_speedTable.2.2
  · intro hz
    rw [heq, if_neg (not_not.mpr hz)]
    exact ⟨rfl, hz⟩

/-- Witness of C15: `setSpeed 3` on a vehicle driving at compare value 120 gives duty 90
and compare value 360; on a stopped vehicle the compare register stays 0. -/
theorem C15_setSpeed_witness :
    ((setSpeed 3 { Machine.zero 30 1 0 with OCR1AL := 120 }).initDutyCycle = 90 ∧
      OCR1A (setSpeed 3 { Machine.zero 30 1 0 with OCR1AL := 120 }) = 360) ∧
    ((setSpeed 3 (Machine.zero 30 1 0)).initDutyCycle = 90 ∧
      OCR1A (setSpeed 3 (Machine.zero 30 1 0)) = 0) :=
  ⟨⟨Option.some.inj (C15_setSpeed 3 { Machine.zero 30 1 0 with OCR1AL := 120 }
        (by decide) (by decide)).1.symm,
    ((C15_setSpeed 3 { Machine.zero 30 1 0 with OCR1AL := 120 }
        (by decide) (by decide)).2.2.1 (by decide)).2.trans (by decide)⟩,
   ⟨Option.some.inj (C15_setSpeed 3 (Machine.zero 30 1 0) (by decide) (by decide)).1.symm,
    ((C15_setSpeed 3 (Machine.zero 30 1 0) (by decide) (by decide)).2.2.2 (by decide)).2⟩⟩

/-- C16: `motors_setDutyCycle` has no bound check: for every argument from 101 to 255 it
leaves a value above `PWM_TOP` in the compare register (four times the argument, or one
less), and for every argument up to 100 a value of at most `PWM_TOP`. -/
theorem C16_setDutyCycle_no_bound_check (percent : Nat) (s : Machine) (h8 : percent ≤ 255) :
    (OCR1A (motors_setDutyCycle percent s) = 4 * percent ∨
      OCR1A (motors_setDutyCycle percent s) + 1 = 4 * percent) ∧
    (101 ≤ percent → PWM_TOP < OCR1A (motors_setDutyCycle percent s)) ∧
    (percent ≤ 100 → OCR1A (motors_setDutyCycle percent s) ≤ PWM_TOP) := by
  rw [motors_setDutyCycle_OCR1A]
  have h := dutyCompare_byte percent h8
  have hT : PWM_TOP = 400 := rfl
  rw [hT]
  refine ⟨h, fun _ => ?_, fun _ => ?_⟩ <;> omega

/-- Witness of C16: the arguments 101 and 255 leave 404 and 1020 in the compare register,
the argument 100 leaves 400. -/
theorem C16_setDutyCycle_no_bound_check_witness :
    PWM_TOP < OCR1A (motors_setDutyCycle 101 (Machine.zero 30 1 0)) ∧
    PWM_TOP < OCR1A (motors_setDutyCycle 255 (Machine.zero 30 1 0)) ∧
    OCR1A (motors_setDutyCycle 100 (Machine.zero 30 1 0)) ≤ PWM_TOP :=
  ⟨(C16_setDutyCycle_no_bound_check 101 (Machine.zero 30 1 0) (by decide)).2.1 (by decide),
   (C16_setDutyCycle_no_bound_check 255 (Machine.zero 30 1 0) (by decide)).2.1 (by decide),
   (C16_setDutyCycle_no_bound_check 100 (Machine.zero 30 1 0) (by decide)).2.2 (by decide)⟩

/-- C17: for every state and every argument, `motors_setDutyCycle` leaves the counter
register 0, performs exactly four register writes in the order `TCNT1H`, `TCNT1L`,
`OCR1AH`, `OCR1AL` (counter before compare), and changes neither `PORTB` (so neither
phase pin) nor the three globals. -/
theorem C17_setDutyCycle_counter_and_frame (percent : Nat) (s : Machine) :
    TCNT1 (motors_setDutyCycle percent s) = 0 ∧
    (motors_setDutyCycle percent s).writes =
      s.writes ++ [(Reg.TCNT1H, 0), (Reg.TCNT1L, 0),
        (Reg.OCR1AH, (motors_setDutyCycle percent s).OCR1AH),
        (Reg.OCR1AL, (motors_setDutyCycle percent s).OCR1AL)] ∧
    (motors_setDutyCycle percent s).PORTB = s.PORTB ∧
    phaseA (motors_setDutyCycle percent s) = phaseA s ∧
    phaseB (motors_setDutyCycle percent s) = phaseB s ∧
    (motors_setDutyCycle percent s).initDutyCycle = s.initDutyCycle ∧
    (motors_setDutyCycle percent s).vehicleEnableMovementFlag = s.vehicleEnableMovementFlag ∧
    (motors_setDutyCycle percent s).speedTableIndex = s.speedTableIndex := by
  have hf := motors_setDutyCycle_frame percent s
  refine ⟨?_, ?_, hf.1, ?_, ?_, hf.2.1, hf.2.2.1, hf.2.2.2⟩
  · simp [TCNT1, motors_setDutyCycle, Machine.write]
  · rw [motors_setDutyCycle_writes]
    simp [motors_setDutyCycle, Machine.write]
  · unfold phaseA; rw [hf.1]
  · unfold phaseB; rw [hf.1]

/-- C18: for all values and whatever the two outputs held, `photoMax` returns a maximum
value that is at least each of the three values and is the value of the reading named by
the returned index, and the index is 1, 2 or 3. -/
theorem C18_photoMax_maximum (out : Nat × Nat) (val1 val2 val3 : Nat) :
    val1 ≤ (photoMax out val1 val2 val3).1 ∧
    val2 ≤ (photoMax out val1 val2 val3).1 ∧
    val3 ≤ (photoMax out val1 val2 val3).1 ∧
    ((photoMax out val1 val2 val3).2 = 1 ∧ (photoMax out val1 val2 val3).1 = val1 ∨
     (photoMax out val1 val2 val3).2 = 2 ∧ (photoMax out val1 val2 val3).1 = val2 ∨
     (photoMax out val1 val2 val3).2 = 3 ∧ (photoMax out val1 val2 val3).1 = val3) := by
  simp only [photoMax]
  split_ifs <;> simp <;> omega

/-- C19: in every state reached from startup by any sequence of button events and
control-loop iterations, `speedTableIndex` is below `SPEEDS_NUM`, its 8-bit increment in
the handler does not wrap, and the index at which the handler reads `speedTable` (the
index it leaves) is inside the table. -/
theorem C19_index_in_bounds (block : Option Nat) (events : List Event) (r : Machine) :
    (run block events r).speedTableIndex < SPEEDS_NUM ∧
    ((run block events r).speedTableIndex + 1) % 256
      = (run block events r).speedTableIndex + 1 ∧
    (∀ pind, (ISR_INT1_vect pind (run block events r)).speedTableIndex < speedTable.length) := by
  have hT : speedTable[(run block events r).speedTableIndex]? =
      some (run block events r).initDutyCycle := by
    unfold run
    exact foldl_table block events _ (motorDriver_init_table r)
  have hlt := (speedTable_entry _ _ hT).1
  have h3 : SPEEDS_NUM = 3 := rfl
  rw [h3] at hlt ⊢
  refine ⟨hlt, by omega, fun pind => ?_⟩
  exact (speedTable_entry _ _ (ISR_INT1_vect_table pind _ hT)).1

/-- C20: in every state reached from startup, after `motorDriver_init`, by any sequence of
button events and control-loop iterations, the compare register is 0, 120, 240 or 360,
hence at most `PWM_TOP`. -/
theorem C20_compare_within_top (block : Option Nat) (events : List Event) (r : Machine) :
    (OCR1A (run block events r) = 0 ∨ OCR1A (run block events r) = 120 ∨
      OCR1A (run block events r) = 240 ∨ OCR1A (run block events r) = 360) ∧
    OCR1A (run block events r) ≤ PWM_TOP := by
  have h : OCR1A (run block events r) = 0 ∨ OCR1A (run block events r) = 120 ∨
      OCR1A (run block events r) = 240 ∨ OCR1A (run block events r) = 360 := by
    unfold run
    exact foldl_compare block events _ (motorDriver_init_table r)
      (Or.inl (motorDriver_init_OCR1A _))
  have hT : PWM_TOP = 400 := rfl
  refine ⟨h, ?_⟩
  rw [hT]
  omega

end PhotonVehicle
